import Mathlib

/-!
Shallow embedding of `custom_components/Philips_Pet_Series/__init__.py`
(the Philips Pets Series Home Assistant integration) and proofs about it.

The module defines one coordinator class whose `_async_update_data` builds a
snapshot dictionary from a sequence of client calls, plus `async_setup_entry`
and `async_unload_entry`.  We embed the Python control flow directly: fallible
calls are `Except PyExc`, Python dicts are insertion-ordered association
lists, and the local variable `base_data` — assigned only inside the per-home
loop — is an `Option` that starts out unbound.
-/

/-- A home, identified by `home.id` (the only attribute the module reads). -/
structure Home where
  id : String
  deriving DecidableEq, Repr

/-- A device, identified by `device.id` (the only attribute the module reads). -/
structure Device where
  id : String
  deriving DecidableEq, Repr

/-- An event returned by `client.events.get_events`; opaque payload. -/
structure Event where
  tag : Nat
  deriving DecidableEq, Repr

/-- A meal returned by `client.meals.get_meals`; opaque payload. -/
structure Meal where
  tag : Nat
  deriving DecidableEq, Repr

/-- A Tuya status value returned by `client.get_tuya_status`; opaque payload. -/
structure TuyaStatus where
  tag : Nat
  deriving DecidableEq, Repr

/-- A value stored in a settings or base-data dict: Python `None`, a Tuya
status object, or some opaque pre-existing settings value. -/
inductive SVal where
  | pyNone : SVal
  | tuya (t : TuyaStatus) : SVal
  | raw (s : String) : SVal
  deriving DecidableEq, Repr

/-- An event type as produced by the static provider `Event.get_event_types()`:
either a plain Python string, or an object that may expose a `.value`
attribute; `reprStr` is what `str(event_type)` prints for the object. -/
inductive EvType where
  | str (s : String) : EvType
  | obj (hasValue : Bool) (value : String) (reprStr : String) : EvType
  deriving DecidableEq, Repr

/-- `event_type if isinstance(event_type, str) else (event_type.value if
hasattr(event_type, "value") else str(event_type))` — the normalization used
to build the `events_by_home_and_type` key. -/
def evTypeStr : EvType → String
  | .str s => s
  | .obj true v _ => v
  | .obj false _ r => r

/-- `str(event_type)` — the value passed as the `types` argument of
`get_events`. -/
def evTypePy : EvType → String
  | .str s => s
  | .obj _ _ r => r

/-- The slice of `datetime.datetime` the module constructs: year, month, day
and a fixed-offset timezone in hours. -/
structure PyDateTime where
  year : Nat
  month : Nat
  day : Nat
  tzOffsetHours : Int
  deriving DecidableEq, Repr

/-- `dt.datetime(2024, 1, 1, tzinfo=dt.timezone(dt.timedelta(hours=2)))`. -/
def fromDateFixed : PyDateTime := ⟨2024, 1, 1, 2⟩

/-- `dt.datetime(2100, 1, 1, tzinfo=dt.timezone(dt.timedelta(hours=2)))`. -/
def toDateFixed : PyDateTime := ⟨2100, 1, 1, 2⟩

/-- Python exceptions the embedded code can raise or observe. -/
inductive PyExc where
  | exc (msg : String) : PyExc
  | unboundLocalError (name : String) : PyExc
  | keyError (key : String) : PyExc
  | updateFailed (msg : String) (cause : PyExc) : PyExc
  | configEntryAuthFailed (msg : String) (cause : PyExc) : PyExc
  deriving DecidableEq, Repr

/-- `str(e)` for the exceptions above. -/
def excStr : PyExc → String
  | .exc m => m
  | .unboundLocalError n => "cannot access local variable " ++ n
  | .keyError k => k
  | .updateFailed m _ => m
  | .configEntryAuthFailed m _ => m

/-- Python dict update `d[k] = v` on an insertion-ordered association list:
replace the value in place if the key exists, else append. -/
def dictSet {α : Type} : List (String × α) → String → α → List (String × α)
  | [], k, v => [(k, v)]
  | (k0, v0) :: rest, k, v =>
      if k0 = k then (k, v) :: rest else (k0, v0) :: dictSet rest k v

/-- Python dict lookup `d.get(k)`. -/
def dictGet {α : Type} : List (String × α) → String → Option α
  | [], _ => none
  | (k0, v0) :: rest, k => if k0 = k then some v0 else dictGet rest k

/-- A device settings record: the dict returned by `client.get_settings`,
possibly updated in place by the coordinator. -/
abbrev SettingsDict := List (String × SVal)

/-- The Pets Series client as seen by this module.  Each method is an oracle
for what the corresponding awaited call returns (or raises).  Calls that take
arguments are functions of those arguments; `get_tuya_status` takes no
arguments in Python, so successive calls are modelled as an oracle indexed by
the number of prior `get_tuya_status` calls in this refresh.  `event_types`
models the static provider `Event.get_event_types()`. -/
structure Client where
  get_homes : Except PyExc (List Home)
  get_devices : Home → Except PyExc (List Device)
  get_events : Home → PyDateTime → PyDateTime → String → Except PyExc (List Event)
  get_settings : Home → String → Except PyExc SettingsDict
  get_meals : Home → Except PyExc (List Meal)
  tuya_client : Bool
  get_tuya_status : Nat → Except PyExc TuyaStatus
  event_types : List EvType

/-- The dict literal returned by `_async_update_data` on success: exactly the
seven keys `homes, devices, meals, events_by_home_and_type, event_types,
settings, base_data`. -/
structure Snapshot where
  homes : List Home
  devices : List Device
  meals : List Meal
  events_by_home_and_type : List (String × List Event)
  event_types : List EvType
  settings : List (String × SettingsDict)
  base_data : List (String × SVal)
  deriving DecidableEq, Repr

/-- The local variables of `_async_update_data` that the per-home loop
accumulates.  `base_data` starts out as an unbound local (`none`): it is only
ever assigned inside the loop body.  `tuyaCalls` counts `get_tuya_status`
calls made so far, to index the oracle. -/
structure LoopState where
  devices : List Device
  meals : List Meal
  events_by_home_and_type : List (String × List Event)
  settings : List (String × SettingsDict)
  base_data : Option (List (String × SVal))
  tuyaCalls : Nat
  deriving DecidableEq, Repr

/-- The accumulator state right before the `for home in homes` loop. -/
def initLoopState : LoopState :=
  { devices := [], meals := [], events_by_home_and_type := [],
    settings := [], base_data := none, tuyaCalls := 0 }

/-- The inner `for event_type in event_types` loop: fetch events over the
fixed window with `types=str(event_type)` and store them under
`"{home.id}_{event_type_str}"`. -/
def processEventTypes (c : Client) (h : Home) :
    List EvType → List (String × List Event) →
    Except PyExc (List (String × List Event))
  | [], acc => .ok acc
  | et :: rest, acc =>
      match c.get_events h fromDateFixed toDateFixed (evTypePy et) with
      | .error e => .error e
      | .ok home_events =>
          processEventTypes c h rest
            (dictSet acc (h.id ++ "_" ++ evTypeStr et) home_events)

/-- The `for device in home_devices` loop: fetch settings, store them under
the device id, then set `settings[device.id]["tuya_status"]` to the Tuya
status if a Tuya client is configured, else to `None`.  Returns the updated
settings dict and the updated `get_tuya_status` call count. -/
def processDevices (c : Client) (h : Home) :
    List Device → List (String × SettingsDict) → Nat →
    Except PyExc (List (String × SettingsDict) × Nat)
  | [], acc, calls => .ok (acc, calls)
  | d :: rest, acc, calls =>
      match c.get_settings h d.id with
      | .error e => .error e
      | .ok device_settings =>
          if c.tuya_client then
            match c.get_tuya_status calls with
            | .error e => .error e
            | .ok t =>
                processDevices c h rest
                  (dictSet acc d.id
                    (dictSet device_settings "tuya_status" (SVal.tuya t)))
                  (calls + 1)
          else
            processDevices c h rest
              (dictSet acc d.id
                (dictSet device_settings "tuya_status" SVal.pyNone))
              calls

/-- One iteration of the `for home in homes` loop body. -/
def processHome (c : Client) (st : LoopState) (h : Home) :
    Except PyExc LoopState :=
  match c.get_devices h with
  | .error e => .error e
  | .ok home_devices =>
    match processEventTypes c h c.event_types st.events_by_home_and_type with
    | .error e => .error e
    | .ok events =>
      match processDevices c h home_devices st.settings st.tuyaCalls with
      | .error e => .error e
      | .ok (settings, calls) =>
        match c.get_meals h with
        | .error e => .error e
        | .ok home_meals =>
          if c.tuya_client then
            match c.get_tuya_status calls with
            | .error e => .error e
            | .ok t =>
                .ok { devices := st.devices ++ home_devices,
                      meals := st.meals ++ home_meals,
                      events_by_home_and_type := events, settings := settings,
                      base_data := some (dictSet [] "tuya_status" (SVal.tuya t)),
                      tuyaCalls := calls + 1 }
          else
            .ok { devices := st.devices ++ home_devices,
                  meals := st.meals ++ home_meals,
                  events_by_home_and_type := events, settings := settings,
                  base_data := some (dictSet [] "tuya_status" SVal.pyNone),
                  tuyaCalls := calls }

/-- The whole `for home in homes` loop. -/
def processHomes (c : Client) : LoopState → List Home → Except PyExc LoopState
  | st, [] => .ok st
  | st, h :: rest =>
      match processHome c st h with
      | .error e => .error e
      | .ok st' => processHomes c st' rest

/-- The body of the `try` block of `_async_update_data`: list homes, run the
loop, then build the returned dict.  Reading `base_data` while it is still
unbound (homes was empty, so the loop body never ran) raises
`UnboundLocalError`, which is still inside the `try`. -/
def updateBody (c : Client) : Except PyExc Snapshot :=
  match c.get_homes with
  | .error e => .error e
  | .ok homes =>
    match processHomes c initLoopState homes with
    | .error e => .error e
    | .ok st =>
      match st.base_data with
      | none => .error (.unboundLocalError "base_data")
      | some bd =>
          .ok { homes := homes, devices := st.devices, meals := st.meals,
                events_by_home_and_type := st.events_by_home_and_type,
                event_types := c.event_types, settings := st.settings,
                base_data := bd }

/-- `_async_update_data`: the `try` body, with every exception caught and
re-raised as `UpdateFailed(f"Error communicating with API: {err}")` chained
from the original. -/
def _async_update_data (c : Client) : Except PyExc Snapshot :=
  match updateBody c with
  | .ok s => .ok s
  | .error e =>
      .error (.updateFailed ("Error communicating with API: " ++ excStr e) e)

/-- `pat` occurs at the start of `l` (character lists). -/
def charsStartWith : List Char → List Char → Bool
  | [], _ => true
  | _ :: _, [] => false
  | p :: ps, c :: cs => p = c && charsStartWith ps cs

/-- `pat` occurs somewhere inside `l` (character lists). -/
def charsContain (pat : List Char) : List Char → Bool
  | [] => charsStartWith pat []
  | c :: cs => charsStartWith pat (c :: cs) || charsContain pat cs

/-- Python `pat in s` on strings. -/
def strContainsSub (s pat : String) : Bool :=
  charsContain pat.toList s.toList

/-- Python truthiness of an optional string config value: present and
non-empty.  Models `key in data and data[key]`. -/
def truthy : Option String → Bool
  | some s => !s.isEmpty
  | none => false

/-- The `entry.data` mapping, restricted to the keys the module reads. -/
structure EntryData where
  access_token : Option String
  refresh_token : Option String
  tuya_client_id : Option String
  tuya_ip : Option String
  tuya_local_key : Option String
  tuya_version : Option String
  deriving DecidableEq, Repr

/-- The Tuya credentials dict built by `async_setup_entry` (the `3.4` float
default is modelled as the string `"3.4"`). -/
structure TuyaCredentials where
  client_id : String
  ip : String
  local_key : String
  version : String
  deriving DecidableEq, Repr

/-- `tuya_credentials = {...} if all(key in data and data[key] for key in
("tuya_client_id", "tuya_ip", "tuya_local_key")) else None`. -/
def extractTuyaCredentials (d : EntryData) : Option TuyaCredentials :=
  if truthy d.tuya_client_id && truthy d.tuya_ip && truthy d.tuya_local_key then
    some { client_id := d.tuya_client_id.getD "",
           ip := d.tuya_ip.getD "",
           local_key := d.tuya_local_key.getD "",
           version := d.tuya_version.getD "3.4" }
  else
    none

/-- Outcomes of the external awaited calls `async_setup_entry` makes, in
program order: `client.initialize()`,
`coordinator.async_config_entry_first_refresh()`, and
`hass.config_entries.async_forward_entry_setups(entry, PLATFORMS)`. -/
structure SetupEnv where
  client_init : Except PyExc Unit
  first_refresh : Except PyExc Unit
  forward_setups : Except PyExc Unit

/-- What `hass.data[DOMAIN][entry.entry_id]` holds after a successful setup:
the client (identified by the credentials it was constructed with) and the
coordinator. -/
structure StoredEntry where
  client_tuya : Option TuyaCredentials
  coordinator_delay_tenths : Nat
  deriving DecidableEq, Repr

/-- How `async_setup_entry` returns to the platform: `True`, `False`, or by
raising. -/
inductive SetupOutcome where
  | returnedTrue : SetupOutcome
  | returnedFalse : SetupOutcome
  | raised (e : PyExc) : SetupOutcome
  deriving DecidableEq, Repr

/-- `async_setup_entry`: build the client, try `initialize()` — mapping an
`invalid_client` failure to `ConfigEntryAuthFailed` and any other failure to
`return False` — then run the first refresh (exceptions propagate), store
`{client, coordinator}` in `hass.data`, and forward the platforms.  Returns
the outcome together with what ends up stored for this entry
(`delay_between_calls=0.5` is recorded as 5 tenths). -/
def async_setup_entry (env : SetupEnv) (data : EntryData) :
    SetupOutcome × Option StoredEntry :=
  let tuya_credentials := extractTuyaCredentials data
  match env.client_init with
  | .error e =>
      if strContainsSub (excStr e) "invalid_client" then
        (.raised (.configEntryAuthFailed
            "Invalid client credentials. Please re-authenticate." e), none)
      else
        (.returnedFalse, none)
  | .ok _ =>
      match env.first_refresh with
      | .error e => (.raised e, none)
      | .ok _ =>
          let stored : StoredEntry :=
            { client_tuya := tuya_credentials, coordinator_delay_tenths := 5 }
          match env.forward_setups with
          | .error e => (.raised e, some stored)
          | .ok _ => (.returnedTrue, some stored)

/-- The observable effect of `async_unload_entry`: its return value, the
state left in `hass.data` for this entry, and whether `client.close()` was
awaited. -/
structure UnloadEffect where
  returned : Bool
  storedAfter : Option StoredEntry
  clientClosed : Bool
  deriving DecidableEq, Repr

/-- `async_unload_entry`: if `async_unload_platforms` reported success, look
up the stored client (a `KeyError` if nothing is stored), close it and pop
the entry; otherwise leave everything untouched and return the failure. -/
def async_unload_entry (unload_ok : Bool) (stored : Option StoredEntry) :
    Except PyExc UnloadEffect :=
  if unload_ok then
    match stored with
    | none => .error (.keyError "entry_id")
    | some _ =>
        .ok { returned := true, storedAfter := none, clientClosed := true }
  else
    .ok { returned := false, storedAfter := stored, clientClosed := false }

/-! ### Spec-side helper definitions -/

/-- The concatenation, in home listing order, of the device lists returned by
`get_devices` for each home (the value the spec says `devices` must equal). -/
def collectDevices (c : Client) : List Home → Except PyExc (List Device)
  | [] => .ok []
  | h :: rest =>
      match c.get_devices h with
      | .error e => .error e
      | .ok ds =>
          match collectDevices c rest with
          | .error e => .error e
          | .ok rest' => .ok (ds ++ rest')

/-- The `events_by_home_and_type` key written for a (home, event type) pair. -/
def keyOf (h : Home) (et : EvType) : String :=
  h.id ++ "_" ++ evTypeStr et

/-- The event keys written while processing one home, in writing order. -/
def eventKeysForHome (ets : List EvType) (h : Home) : List String :=
  ets.map (keyOf h)

/-- All event keys written during a refresh, in writing order. -/
def eventKeys (ets : List EvType) : List Home → List String
  | [] => []
  | h :: rest => eventKeysForHome ets h ++ eventKeys ets rest

/-- How many `get_tuya_status` calls one home iteration makes: one per device
plus one for `base_data` when a Tuya client is configured, none otherwise. -/
def tuyaCallsForHome (c : Client) (h : Home) : Nat :=
  if c.tuya_client then
    (match c.get_devices h with
     | .ok ds => ds.length
     | .error _ => 0) + 1
  else 0

/-- Total `get_tuya_status` calls made while processing a list of homes. -/
def tuyaCallsBefore (c : Client) : List Home → Nat
  | [] => 0
  | h :: rest => tuyaCallsForHome c h + tuyaCallsBefore c rest

/-! ### Dictionary lemmas -/

theorem dictGet_dictSet_self {α : Type} (d : List (String × α)) (k : String)
    (v : α) : dictGet (dictSet d k v) k = some v := by
  induction d with
  | nil => simp [dictSet, dictGet]
  | cons p rest ih =>
      obtain ⟨k0, v0⟩ := p
      by_cases hk : k0 = k
      · simp [dictSet, dictGet, hk]
      · simp [dictSet, dictGet, hk, ih]

theorem dictGet_dictSet_of_ne {α : Type} (d : List (String × α))
    (k k' : String) (v : α) (hne : k' ≠ k) :
    dictGet (dictSet d k v) k' = dictGet d k' := by
  have hne' : ¬ (k = k') := fun h => hne h.symm
  induction d with
  | nil => simp [dictSet, dictGet, hne']
  | cons p rest ih =>
      obtain ⟨k0, v0⟩ := p
      by_cases hk : k0 = k
      · subst hk
        simp [dictSet, dictGet, hne']
      · simp [dictSet, dictGet, hk, ih]

theorem mem_dictSet {α : Type} {d : List (String × α)} {k : String} {v : α}
    {p : String × α} (hp : p ∈ dictSet d k v) : p = (k, v) ∨ p ∈ d := by
  induction d with
  | nil => simpa [dictSet] using hp
  | cons q rest ih =>
      obtain ⟨k0, v0⟩ := q
      by_cases hk : k0 = k
      · simp only [dictSet, if_pos hk, List.mem_cons] at hp
        rcases hp with h | h
        · exact Or.inl h
        · exact Or.inr (List.mem_cons_of_mem _ h)
      · simp only [dictSet, if_neg hk, List.mem_cons] at hp
        rcases hp with h | h
        · exact Or.inr (h ▸ List.mem_cons_self _ _)
        · rcases ih h with h' | h'
          · exact Or.inl h'
          · exact Or.inr (List.mem_cons_of_mem _ h')

/-! ### Decomposition lemmas for the update loop -/

theorem processHome_ok {c : Client} {st : LoopState} {h : Home}
    {st' : LoopState} (hok : processHome c st h = .ok st') :
    ∃ ds evs stg calls ms,
      c.get_devices h = .ok ds ∧
      processEventTypes c h c.event_types st.events_by_home_and_type = .ok evs ∧
      processDevices c h ds st.settings st.tuyaCalls = .ok (stg, calls) ∧
      c.get_meals h = .ok ms ∧
      st'.devices = st.devices ++ ds ∧
      st'.meals = st.meals ++ ms ∧
      st'.events_by_home_and_type = evs ∧
      st'.settings = stg ∧
      ((c.tuya_client = true ∧ ∃ t, c.get_tuya_status calls = .ok t ∧
          st'.base_data = some [("tuya_status", SVal.tuya t)] ∧
          st'.tuyaCalls = calls + 1) ∨
       (c.tuya_client = false ∧
          st'.base_data = some [("tuya_status", SVal.pyNone)] ∧
          st'.tuyaCalls = calls)) := by
  cases hdev : c.get_devices h with
  | error e => simp [processHome, hdev] at hok
  | ok ds =>
    cases hev : processEventTypes c h c.event_types st.events_by_home_and_type with
    | error e => simp [processHome, hdev, hev] at hok
    | ok evs =>
      cases hdv : processDevices c h ds st.settings st.tuyaCalls with
      | error e => simp [processHome, hdev, hev, hdv] at hok
      | ok pr =>
        obtain ⟨stg, calls⟩ := pr
        cases hml : c.get_meals h with
        | error e => simp [processHome, hdev, hev, hdv, hml] at hok
        | ok ms =>
          cases htc : c.tuya_client with
          | true =>
            cases hts : c.get_tuya_status calls with
            | error e =>
                simp [processHome, hdev, hev, hdv, hml, htc, hts] at hok
            | ok t =>
                simp only [processHome, hdev, hev, hdv, hml, htc, hts,
                  if_true] at hok
                injection hok with hst
                subst hst
                exact ⟨ds, evs, stg, calls, ms, rfl, rfl, hdv, rfl, rfl, rfl,
                  rfl, rfl,
                  Or.inl ⟨rfl, t, by simp [hts], by simp [dictSet], rfl⟩⟩
          | false =>
            simp only [processHome, hdev, hev, hdv, hml, htc,
              Bool.false_eq_true, if_false] at hok
            injection hok with hst
            subst hst
            exact ⟨ds, evs, stg, calls, ms, rfl, rfl, hdv, rfl, rfl, rfl,
              rfl, rfl,
              Or.inr ⟨rfl, by simp [dictSet], rfl⟩⟩

theorem processHomes_devices {c : Client} {homes : List Home}
    {st st' : LoopState} (hok : processHomes c st homes = .ok st') :
    ∃ ds, collectDevices c homes = .ok ds ∧ st'.devices = st.devices ++ ds := by
  induction homes generalizing st with
  | nil =>
      simp only [processHomes] at hok
      injection hok with hst
      subst hst
      exact ⟨[], rfl, by simp⟩
  | cons h rest ih =>
      cases hph : processHome c st h with
      | error e => simp [processHomes, hph] at hok
      | ok st1 =>
          simp only [processHomes, hph] at hok
          obtain ⟨ds0, evs, stg, calls, ms, hdev, hev, hdv, hml, hdevs, hmls,
            hevts, hstg, hbase⟩ := processHome_ok hph
          obtain ⟨ds1, hcol, hdev1⟩ := ih hok
          refine ⟨ds0 ++ ds1, ?_, ?_⟩
          · simp [collectDevices, hdev, hcol]
          · rw [hdev1, hdevs, List.append_assoc]

theorem processDevices_calls {c : Client} {h : Home} {ds : List Device}
    {acc : List (String × SettingsDict)} {calls : Nat}
    {stg : List (String × SettingsDict)} {calls' : Nat}
    (hok : processDevices c h ds acc calls = .ok (stg, calls')) :
    calls' = calls + (if c.tuya_client then ds.length else 0) := by
  induction ds generalizing acc calls with
  | nil =>
      simp only [processDevices] at hok
      injection hok with hpr
      have h2 : calls = calls' := congrArg Prod.snd hpr
      simp [← h2]
  | cons d rest ih =>
      cases hst : c.get_settings h d.id with
      | error e => simp [processDevices, hst] at hok
      | ok dsett =>
        cases htc : c.tuya_client with
        | true =>
            cases hts : c.get_tuya_status calls with
            | error e => simp [processDevices, hst, htc, hts] at hok
            | ok t =>
                simp only [processDevices, hst, htc, hts, if_true] at hok
                have := ih hok
                simp only [htc, if_true, List.length_cons] at this ⊢
                omega
        | false =>
            simp only [processDevices, hst, htc, Bool.false_eq_true,
              if_false] at hok
            have := ih hok
            simp only [htc, Bool.false_eq_true, if_false] at this ⊢
            omega

theorem processHome_calls {c : Client} {st : LoopState} {h : Home}
    {st' : LoopState} (hok : processHome c st h = .ok st') :
    st'.tuyaCalls = st.tuyaCalls + tuyaCallsForHome c h := by
  obtain ⟨ds, evs, stg, calls, ms, hdev, hev, hdv, hml, hdevs, hmls,
    hevts, hstg, hbase⟩ := processHome_ok hok
  have hcalls := processDevices_calls hdv
  rcases hbase with ⟨htc, t, hts, hbd, htk⟩ | ⟨htc, hbd, htk⟩
  · rw [htk, hcalls]
    simp only [tuyaCallsForHome, htc, if_true, hdev]
    omega
  · rw [htk, hcalls]
    simp only [tuyaCallsForHome, htc, Bool.false_eq_true, if_false]

theorem processHomes_calls {c : Client} {homes : List Home}
    {st st' : LoopState} (hok : processHomes c st homes = .ok st') :
    st'.tuyaCalls = st.tuyaCalls + tuyaCallsBefore c homes := by
  induction homes generalizing st with
  | nil =>
      simp only [processHomes] at hok
      injection hok with hst
      subst hst
      simp [tuyaCallsBefore]
  | cons h rest ih =>
      cases hph : processHome c st h with
      | error e => simp [processHomes, hph] at hok
      | ok st1 =>
          simp only [processHomes, hph] at hok
          have h1 := processHome_calls hph
          have h2 := ih hok
          rw [h2, h1, tuyaCallsBefore]
          omega

theorem processEventTypes_get_of_not_mem {c : Client} {h : Home}
    {ets : List EvType} {acc out : List (String × List Event)}
    (hok : processEventTypes c h ets acc = .ok out)
    {k : String} (hk : k ∉ ets.map (keyOf h)) :
    dictGet out k = dictGet acc k := by
  induction ets generalizing acc with
  | nil =>
      simp only [processEventTypes] at hok
      injection hok with hst
      subst hst
      rfl
  | cons et rest ih =>
      cases hev : c.get_events h fromDateFixed toDateFixed (evTypePy et) with
      | error e => simp [processEventTypes, hev] at hok
      | ok evs =>
          simp only [processEventTypes, hev] at hok
          simp only [List.map_cons, List.mem_cons, not_or] at hk
          rw [ih hok hk.2]
          exact dictGet_dictSet_of_ne _ _ _ _ hk.1

theorem processEventTypes_get_mem {c : Client} {h : Home}
    {ets : List EvType} {acc out : List (String × List Event)}
    (hok : processEventTypes c h ets acc = .ok out)
    (hnd : (ets.map (keyOf h)).Nodup)
    {et : EvType} (het : et ∈ ets) {evs : List Event}
    (hev : c.get_events h fromDateFixed toDateFixed (evTypePy et) = .ok evs) :
    dictGet out (keyOf h et) = some evs := by
  induction ets generalizing acc with
  | nil => cases het
  | cons et0 rest ih =>
      cases hev0 : c.get_events h fromDateFixed toDateFixed (evTypePy et0) with
      | error e => simp [processEventTypes, hev0] at hok
      | ok evs0 =>
          simp only [processEventTypes, hev0] at hok
          simp only [List.map_cons, List.nodup_cons] at hnd
          rcases List.mem_cons.mp het with rfl | hmem
          · have hv : evs0 = evs := by
              rw [hev0] at hev
              exact Except.ok.inj hev
            subst hv
            rw [processEventTypes_get_of_not_mem hok hnd.1]
            exact dictGet_dictSet_self _ _ _
          · exact ih hok hnd.2 hmem

theorem processHomes_events_of_not_mem {c : Client} {homes : List Home}
    {st st' : LoopState} (hok : processHomes c st homes = .ok st')
    {k : String} (hk : k ∉ eventKeys c.event_types homes) :
    dictGet st'.events_by_home_and_type k =
      dictGet st.events_by_home_and_type k := by
  induction homes generalizing st with
  | nil =>
      simp only [processHomes] at hok
      injection hok with hst
      subst hst
      rfl
  | cons h rest ih =>
      cases hph : processHome c st h with
      | error e => simp [processHomes, hph] at hok
      | ok st1 =>
          simp only [processHomes, hph] at hok
          simp only [eventKeys, List.mem_append, not_or] at hk
          obtain ⟨ds, evs, stg, calls, ms, hdev, hev, hdv, hml, hdevs, hmls,
            hevts, hstg, hbase⟩ := processHome_ok hph
          rw [ih hok hk.2, hevts,
            processEventTypes_get_of_not_mem hev hk.1]

theorem processHomes_events_get_mem {c : Client} {homes : List Home}
    {st st' : LoopState} (hok : processHomes c st homes = .ok st')
    (hnd : (eventKeys c.event_types homes).Nodup)
    {home : Home} (hhome : home ∈ homes) {et : EvType}
    (het : et ∈ c.event_types) {evs : List Event}
    (hev : c.get_events home fromDateFixed toDateFixed (evTypePy et) = .ok evs) :
    dictGet st'.events_by_home_and_type (keyOf home et) = some evs := by
  induction homes generalizing st with
  | nil => cases hhome
  | cons h0 rest ih =>
      cases hph : processHome c st h0 with
      | error e => simp [processHomes, hph] at hok
      | ok st1 =>
          simp only [processHomes, hph] at hok
          simp only [eventKeys, List.nodup_append] at hnd
          obtain ⟨ds, evsd, stg, calls, ms, hdev, hevp, hdv, hml, hdevs, hmls,
            hevts, hstg, hbase⟩ := processHome_ok hph
          rcases List.mem_cons.mp hhome with rfl | hmem
          · have hkmem : keyOf home et ∈ eventKeysForHome c.event_types home :=
              List.mem_map_of_mem (keyOf home) het
            have hknot : keyOf home et ∉ eventKeys c.event_types rest :=
              fun hin => hnd.2.2 hkmem hin
            rw [processHomes_events_of_not_mem hok hknot, hevts]
            exact processEventTypes_get_mem hevp hnd.1 het hev
          · exact ih hok hnd.2.1 hmem

theorem processDevices_settings_pyNone {c : Client} {h : Home}
    {ds : List Device} {acc : List (String × SettingsDict)} {calls : Nat}
    {stg : List (String × SettingsDict)} {calls' : Nat}
    (hok : processDevices c h ds acc calls = .ok (stg, calls'))
    (htc : c.tuya_client = false)
    (hacc : ∀ k sd, (k, sd) ∈ acc → dictGet sd "tuya_status" = some SVal.pyNone) :
    ∀ k sd, (k, sd) ∈ stg → dictGet sd "tuya_status" = some SVal.pyNone := by
  induction ds generalizing acc calls with
  | nil =>
      simp only [processDevices] at hok
      injection hok with hpr
      have h1 : acc = stg := congrArg Prod.fst hpr
      exact h1 ▸ hacc
  | cons d rest ih =>
      cases hst : c.get_settings h d.id with
      | error e => simp [processDevices, hst] at hok
      | ok dsett =>
          simp only [processDevices, hst, htc, Bool.false_eq_true,
            if_false] at hok
          refine ih hok ?_
          intro k sd hmem
          rcases mem_dictSet hmem with heq | hin
          · have hsd : sd = dictSet dsett "tuya_status" SVal.pyNone :=
              congrArg Prod.snd heq
            rw [hsd]
            exact dictGet_dictSet_self _ _ _
          · exact hacc k sd hin

theorem processHomes_settings_pyNone {c : Client} {homes : List Home}
    {st st' : LoopState} (hok : processHomes c st homes = .ok st')
    (htc : c.tuya_client = false)
    (hacc : ∀ k sd, (k, sd) ∈ st.settings →
      dictGet sd "tuya_status" = some SVal.pyNone) :
    ∀ k sd, (k, sd) ∈ st'.settings →
      dictGet sd "tuya_status" = some SVal.pyNone := by
  induction homes generalizing st with
  | nil =>
      simp only [processHomes] at hok
      injection hok with hst
      subst hst
      exact hacc
  | cons h rest ih =>
      cases hph : processHome c st h with
      | error e => simp [processHomes, hph] at hok
      | ok st1 =>
          simp only [processHomes, hph] at hok
          obtain ⟨ds, evs, stg, calls, ms, hdev, hev, hdv, hml, hdevs, hmls,
            hevts, hstg, hbase⟩ := processHome_ok hph
          refine ih hok ?_
          rw [hstg]
          exact processDevices_settings_pyNone hdv htc hacc

theorem processHomes_base_pyNone {c : Client} {homes : List Home}
    {st st' : LoopState} (hok : processHomes c st homes = .ok st')
    (htc : c.tuya_client = false)
    (hbase : st.base_data = none ∨
      st.base_data = some [("tuya_status", SVal.pyNone)]) :
    st'.base_data = none ∨
      st'.base_data = some [("tuya_status", SVal.pyNone)] := by
  induction homes generalizing st with
  | nil =>
      simp only [processHomes] at hok
      injection hok with hst
      subst hst
      exact hbase
  | cons h rest ih =>
      cases hph : processHome c st h with
      | error e => simp [processHomes, hph] at hok
      | ok st1 =>
          simp only [processHomes, hph] at hok
          obtain ⟨ds, evs, stg, calls, ms, hdev, hev, hdv, hml, hdevs, hmls,
            hevts, hstg, hb⟩ := processHome_ok hph
          rcases hb with ⟨htc', _⟩ | ⟨_, hbd, _⟩
          · rw [htc] at htc'
            cases htc'
          · exact ih hok (Or.inr hbd)

theorem updateBody_ok {c : Client} {s : Snapshot}
    (hok : updateBody c = .ok s) :
    c.get_homes = .ok s.homes ∧
    ∃ st, processHomes c initLoopState s.homes = .ok st ∧
      st.base_data = some s.base_data ∧
      s.devices = st.devices ∧ s.meals = st.meals ∧
      s.events_by_home_and_type = st.events_by_home_and_type ∧
      s.settings = st.settings ∧ s.event_types = c.event_types := by
  cases hh : c.get_homes with
  | error e => simp [updateBody, hh] at hok
  | ok homes =>
      cases hps : processHomes c initLoopState homes with
      | error e => simp [updateBody, hh, hps] at hok
      | ok st =>
          cases hbd : st.base_data with
          | none => simp [updateBody, hh, hps, hbd] at hok
          | some bd =>
              simp only [updateBody, hh, hps, hbd] at hok
              injection hok with hs
              subst hs
              exact ⟨rfl, st, hps, hbd, rfl, rfl, rfl, rfl, rfl⟩

theorem update_data_ok_iff {c : Client} {s : Snapshot} :
    _async_update_data c = .ok s ↔ updateBody c = .ok s := by
  cases h : updateBody c with
  | error e => simp [_async_update_data, h]
  | ok s0 => simp [_async_update_data, h]

theorem processHomes_append (c : Client) (st : LoopState)
    (l1 l2 : List Home) :
    processHomes c st (l1 ++ l2) =
      match processHomes c st l1 with
      | .error e => .error e
      | .ok st1 => processHomes c st1 l2 := by
  induction l1 generalizing st with
  | nil => simp [processHomes]
  | cons h rest ih =>
      simp only [List.cons_append, processHomes]
      cases hph : processHome c st h with
      | error e => rfl
      | ok st1 => exact ih st1

/-! ### Concrete fixtures -/

/-- A client for which every call succeeds, with one home, one device, two
event types and no Tuya backend. -/
def sampleClient : Client :=
  { get_homes := .ok [⟨"h1"⟩]
  , get_devices := fun _ => .ok [⟨"d1"⟩]
  , get_events := fun _ _ _ _ => .ok [⟨7⟩]
  , get_settings := fun _ _ => .ok [("feed", SVal.raw "on")]
  , get_meals := fun _ => .ok [⟨3⟩]
  , tuya_client := false
  , get_tuya_status := fun _ => .ok ⟨0⟩
  , event_types := [EvType.obj true "motion_detected" "EventType.MOTION",
                    EvType.str "feeding"] }

/-- The snapshot `_async_update_data` produces for `sampleClient`. -/
def sampleSnapshot : Snapshot :=
  { homes := [⟨"h1"⟩]
  , devices := [⟨"d1"⟩]
  , meals := [⟨3⟩]
  , events_by_home_and_type :=
      [("h1_motion_detected", [⟨7⟩]), ("h1_feeding", [⟨7⟩])]
  , event_types := [EvType.obj true "motion_detected" "EventType.MOTION",
                    EvType.str "feeding"]
  , settings := [("d1", [("feed", SVal.raw "on"),
                         ("tuya_status", SVal.pyNone)])]
  , base_data := [("tuya_status", SVal.pyNone)] }

/-- A Tuya-enabled client with two homes whose `get_tuya_status` oracle
returns the call index, so successive status values are distinguishable. -/
def tuyaClientSample : Client :=
  { get_homes := .ok [⟨"h1"⟩, ⟨"h2"⟩]
  , get_devices := fun _ => .ok [⟨"d1"⟩]
  , get_events := fun _ _ _ _ => .ok []
  , get_settings := fun _ _ => .ok []
  , get_meals := fun _ => .ok []
  , tuya_client := true
  , get_tuya_status := fun n => .ok ⟨n⟩
  , event_types := [EvType.str "feeding"] }

/-- The snapshot `_async_update_data` produces for `tuyaClientSample`: the
`base_data` Tuya status is the one computed for the last home (call 3). -/
def tuyaSnapshotSample : Snapshot :=
  { homes := [⟨"h1"⟩, ⟨"h2"⟩]
  , devices := [⟨"d1"⟩, ⟨"d1"⟩]
  , meals := []
  , events_by_home_and_type := [("h1_feeding", []), ("h2_feeding", [])]
  , event_types := [EvType.str "feeding"]
  , settings := [("d1", [("tuya_status", SVal.tuya ⟨2⟩)])]
  , base_data := [("tuya_status", SVal.tuya ⟨3⟩)] }

/-- A client whose `get_homes` raises an `invalid_client`-class error. -/
def authFailClient : Client :=
  { get_homes := .error (.exc "invalid_client: bad credentials")
  , get_devices := fun _ => .ok []
  , get_events := fun _ _ _ _ => .ok []
  , get_settings := fun _ _ => .ok []
  , get_meals := fun _ => .ok []
  , tuya_client := false
  , get_tuya_status := fun _ => .ok ⟨0⟩
  , event_types := [] }

/-- A client whose `get_homes` succeeds with an empty home list. -/
def emptyHomesClient : Client :=
  { get_homes := .ok []
  , get_devices := fun _ => .ok []
  , get_events := fun _ _ _ _ => .ok []
  , get_settings := fun _ _ => .ok []
  , get_meals := fun _ => .ok []
  , tuya_client := false
  , get_tuya_status := fun _ => .ok ⟨0⟩
  , event_types := [] }

/-- A setup run whose `client.initialize()` raises an `invalid_client`
error. -/
def sampleEnvAuthFail : SetupEnv :=
  { client_init := .error (.exc "invalid_client: denied")
  , first_refresh := .ok ()
  , forward_setups := .ok () }

/-- A setup run whose `client.initialize()` raises a generic error. -/
def sampleEnvGenericFail : SetupEnv :=
  { client_init := .error (.exc "connection reset")
  , first_refresh := .ok ()
  , forward_setups := .ok () }

/-- Entry data with only the cloud tokens configured. -/
def sampleEntryData : EntryData :=
  { access_token := some "tok"
  , refresh_token := some "ref"
  , tuya_client_id := none
  , tuya_ip := none
  , tuya_local_key := none
  , tuya_version := none }

/-- A stored client/coordinator pair, as registered by a successful setup. -/
def sampleStored : StoredEntry :=
  { client_tuya := none, coordinator_delay_tenths := 5 }

/-! ### Claims -/

/-- Claim C1: every call to `_async_update_data` either returns a fully
populated `Snapshot` (the record carries exactly the seven keys `homes,
devices, meals, events_by_home_and_type, event_types, settings, base_data`)
or fails with `UpdateFailed` wrapping the original cause; no partial result
and no unwrapped error ever escapes. -/
theorem update_data_snapshot_or_update_failed (c : Client) :
    (∃ s : Snapshot, _async_update_data c = .ok s) ∨
    (∃ e : PyExc, updateBody c = .error e ∧
      _async_update_data c =
        .error (.updateFailed
          ("Error communicating with API: " ++ excStr e) e)) := by
  cases h : updateBody c with
  | error e => exact Or.inr ⟨e, rfl, by simp [_async_update_data, h]⟩
  | ok s => exact Or.inl ⟨s, by simp [_async_update_data, h]⟩

/-- Claim C2: on every successful refresh, the snapshot's `homes` is the
`get_homes` result and its `devices` list is exactly the concatenation, in
home listing order, of the per-home `get_devices` results — one entry per
returned device, no duplicates, no drops. -/
theorem update_data_devices_concat (c : Client) (s : Snapshot)
    (hok : _async_update_data c = .ok s) :
    c.get_homes = .ok s.homes ∧
    collectDevices c s.homes = .ok s.devices := by
  have hb := update_data_ok_iff.mp hok
  obtain ⟨hh, st, hps, hbd, hdev, _, _, _, _⟩ := updateBody_ok hb
  obtain ⟨ds, hcol, hdevs⟩ := processHomes_devices hps
  refine ⟨hh, ?_⟩
  rw [hcol, hdev, hdevs]
  simp [initLoopState]

/-- Claim C2 witness: concrete evaluation on `sampleClient`. -/
theorem update_data_devices_concat_witness :
    sampleClient.get_homes = .ok sampleSnapshot.homes ∧
    collectDevices sampleClient sampleSnapshot.homes =
      .ok sampleSnapshot.devices :=
  update_data_devices_concat sampleClient sampleSnapshot (by rfl)

/-- Claim C3: on every successful refresh whose event keys are pairwise
distinct, `events_by_home_and_type` maps the key
`"{home.id}_{event_type_str}"` — with `event_type_str` the normalized form of
the event type — to exactly the event list fetched for that (home, event
type) pair over the fixed window, for every home and every event type of the
fixed enumeration; the key is present even when the fetched list is empty. -/
theorem update_data_events_key_complete (c : Client) (s : Snapshot)
    (hok : _async_update_data c = .ok s)
    (hnd : (eventKeys c.event_types s.homes).Nodup)
    (home : Home) (hhome : home ∈ s.homes)
    (et : EvType) (het : et ∈ c.event_types)
    (evs : List Event)
    (hev : c.get_events home fromDateFixed toDateFixed (evTypePy et) = .ok evs) :
    dictGet s.events_by_home_and_type (home.id ++ "_" ++ evTypeStr et) =
      some evs := by
  have hb := update_data_ok_iff.mp hok
  obtain ⟨hh, st, hps, hbd, _, _, hevents, _, _⟩ := updateBody_ok hb
  rw [hevents]
  exact processHomes_events_get_mem hps hnd hhome het hev

/-- Claim C3 witness: concrete evaluation on `sampleClient` (normalized key
uses the `.value` attribute of the event-type object). -/
theorem update_data_events_key_complete_witness :
    dictGet sampleSnapshot.events_by_home_and_type "h1_motion_detected" =
      some [⟨7⟩] :=
  update_data_events_key_complete sampleClient sampleSnapshot (by rfl)
    (by decide) ⟨"h1"⟩ (by decide)
    (EvType.obj true "motion_detected" "EventType.MOTION") (by decide)
    [⟨7⟩] (by rfl)

/-- Claim C4 counterexample: an `invalid_client`-class error raised during a
refresh is surfaced as the generic `UpdateFailed`, not as
`ConfigEntryAuthFailed` — the blanket `except Exception` handler of
`_async_update_data` does not special-case authentication failures. -/
theorem update_data_invalid_client_not_auth_cex :
    _async_update_data authFailClient =
      .error (.updateFailed
        "Error communicating with API: invalid_client: bad credentials"
        (.exc "invalid_client: bad credentials")) ∧
    strContainsSub (excStr (PyExc.exc "invalid_client: bad credentials"))
      "invalid_client" = true := by
  exact ⟨rfl, rfl⟩

/-- Claim C4 (amended): every failure inside the refresh body — including
`invalid_client`-class authentication errors — is re-raised as the single
generic `UpdateFailed` kind wrapping the original cause; only setup-time
initialization distinguishes `invalid_client` errors. -/
theorem update_data_wraps_every_error (c : Client) (e : PyExc)
    (herr : updateBody c = .error e) :
    _async_update_data c =
      .error (.updateFailed ("Error communicating with API: " ++ excStr e) e) := by
  simp [_async_update_data, herr]

/-- Claim C4 (amended) witness: concrete evaluation on `authFailClient`. -/
theorem update_data_wraps_every_error_witness :
    _async_update_data authFailClient =
      .error (.updateFailed
        "Error communicating with API: invalid_client: bad credentials"
        (.exc "invalid_client: bad credentials")) :=
  update_data_wraps_every_error authFailClient
    (.exc "invalid_client: bad credentials") (by rfl)

/-- Claim C5: when `client.initialize()` fails during setup, an error whose
text contains `invalid_client` makes setup raise `ConfigEntryAuthFailed`
carrying the original cause, while any other error makes setup return
`False`; in both cases nothing is stored in the component state. -/
theorem setup_entry_init_failure_paths (env : SetupEnv) (data : EntryData)
    (e : PyExc) (hfail : env.client_init = .error e) :
    (strContainsSub (excStr e) "invalid_client" = true →
      async_setup_entry env data =
        (.raised (.configEntryAuthFailed
          "Invalid client credentials. Please re-authenticate." e), none)) ∧
    (strContainsSub (excStr e) "invalid_client" = false →
      async_setup_entry env data = (.returnedFalse, none)) := by
  constructor
  · intro hc
    simp [async_setup_entry, hfail, hc]
  · intro hc
    simp [async_setup_entry, hfail, hc]

/-- Claim C5 witness: concrete evaluation on an `invalid_client` failure. -/
theorem setup_entry_init_failure_paths_witness :
    async_setup_entry sampleEnvAuthFail sampleEntryData =
      (.raised (.configEntryAuthFailed
        "Invalid client credentials. Please re-authenticate."
        (.exc "invalid_client: denied")), none) :=
  (setup_entry_init_failure_paths sampleEnvAuthFail sampleEntryData
    (.exc "invalid_client: denied") rfl).1 (by rfl)

/-- Claim C6: on every successful refresh with no Tuya client configured,
every entry of the snapshot's `settings` mapping carries a `tuya_status`
field equal to `None` (the field is present, never missing), and —
independently of whether any settings entry exists — `base_data`'s
`tuya_status` field is the same `None` marker. -/
theorem update_data_tuya_status_none_sans_tuya (c : Client) (s : Snapshot)
    (hok : _async_update_data c = .ok s)
    (htc : c.tuya_client = false) :
    (∀ k sd, (k, sd) ∈ s.settings →
      dictGet sd "tuya_status" = some SVal.pyNone) ∧
    dictGet s.base_data "tuya_status" = some SVal.pyNone := by
  have hb := update_data_ok_iff.mp hok
  obtain ⟨hh, st, hps, hbd, _, _, _, hstg, _⟩ := updateBody_ok hb
  constructor
  · intro k sd hmem
    refine processHomes_settings_pyNone hps htc ?_ k sd ?_
    · intro k' sd' hmem'
      simp [initLoopState] at hmem'
    · rw [← hstg]
      exact hmem
  · rcases processHomes_base_pyNone hps htc (Or.inl rfl) with hnone | hsome
    · rw [hnone] at hbd
      cases hbd
    · rw [hsome] at hbd
      rw [← Option.some.inj hbd]
      simp [dictGet]

/-- Claim C6 witness: concrete evaluation on `sampleClient` — the settings
entry for device `d1` and the refresh-scoped `base_data` both carry the
`None` marker. -/
theorem update_data_tuya_status_none_sans_tuya_witness :
    dictGet [("feed", SVal.raw "on"), ("tuya_status", SVal.pyNone)]
      "tuya_status" = some SVal.pyNone ∧
    dictGet sampleSnapshot.base_data "tuya_status" = some SVal.pyNone :=
  ⟨(update_data_tuya_status_none_sans_tuya sampleClient sampleSnapshot
      (by rfl) rfl).1 "d1"
      [("feed", SVal.raw "on"), ("tuya_status", SVal.pyNone)] (by decide),
   (update_data_tuya_status_none_sans_tuya sampleClient sampleSnapshot
      (by rfl) rfl).2⟩

/-- Claim C7: on every successful refresh over a non-empty home list (written
`hs ++ [h]` with `h` the last home in listing order), the published
`base_data` holds exactly the Tuya status computed during the last home's
iteration — the `get_tuya_status` call indexed by all calls made for earlier
homes plus one per device of the last home — or `None` without a Tuya
client; values computed for earlier homes are discarded. -/
theorem update_data_base_data_last_home (c : Client) (s : Snapshot)
    (hs : List Home) (h : Home)
    (hok : _async_update_data c = .ok s)
    (hsplit : s.homes = hs ++ [h]) :
    (∀ ds t, c.tuya_client = true → c.get_devices h = .ok ds →
      c.get_tuya_status (tuyaCallsBefore c hs + ds.length) = .ok t →
      s.base_data = [("tuya_status", SVal.tuya t)]) ∧
    (c.tuya_client = false →
      s.base_data = [("tuya_status", SVal.pyNone)]) := by
  have hb := update_data_ok_iff.mp hok
  obtain ⟨hh, st, hps, hbd, _, _, _, _, _⟩ := updateBody_ok hb
  rw [hsplit, processHomes_append] at hps
  cases hps1 : processHomes c initLoopState hs with
  | error e =>
      rw [hps1] at hps
      exact Except.noConfusion hps
  | ok st1 =>
      rw [hps1] at hps
      have hcalls1 : st1.tuyaCalls = tuyaCallsBefore c hs := by
        have := processHomes_calls hps1
        simpa [initLoopState] using this
      cases hph : processHome c st1 h with
      | error e => simp [processHomes, hph] at hps
      | ok st2 =>
          simp only [processHomes, hph] at hps
          injection hps with hst2
          obtain ⟨ds', evs, stg, calls, ms, hdev', hev, hdv, hml, hdevs,
            hmls, hevts, hstg, hbase⟩ := processHome_ok hph
          have hcalls := processDevices_calls hdv
          constructor
          · intro ds t htc hds ht
            rcases hbase with ⟨_, t', hts', hbd2, _⟩ | ⟨htcf, _, _⟩
            · have hds' : ds' = ds := by
                rw [hdev'] at hds
                exact Except.ok.inj hds
              subst hds'
              rw [htc] at hcalls
              simp only [if_true] at hcalls
              have hidx : calls = tuyaCallsBefore c hs + ds'.length := by
                rw [hcalls, hcalls1]
              rw [← hidx] at ht
              have ht' : t' = t := by
                rw [hts'] at ht
                exact Except.ok.inj ht
              subst ht'
              rw [← hst2, hbd2] at hbd
              exact (Option.some.inj hbd).symm
            · rw [htcf] at htc
              cases htc
          · intro htc
            rcases hbase with ⟨htct, _⟩ | ⟨_, hbd2, _⟩
            · rw [htc] at htct
              cases htct
            · rw [← hst2, hbd2] at hbd
              exact (Option.some.inj hbd).symm

/-- Claim C7 witness: on `tuyaClientSample`, the Tuya status retained in
`base_data` is the one from call index 3 — the last home's base-data call. -/
theorem update_data_base_data_last_home_witness :
    tuyaSnapshotSample.base_data = [("tuya_status", SVal.tuya ⟨3⟩)] :=
  (update_data_base_data_last_home tuyaClientSample tuyaSnapshotSample
    [⟨"h1"⟩] ⟨"h2"⟩ (by rfl) rfl).1 [⟨"d1"⟩] ⟨3⟩ rfl rfl (by rfl)

/-- Claim C9: `async_unload_entry` closes the client and removes the stored
entry exactly when platform unloading reports success; on failure it closes
nothing, leaves the stored state unchanged, and returns the failure. -/
theorem unload_entry_close_iff_unload_ok (stored : Option StoredEntry)
    (entry : StoredEntry) (hst : stored = some entry) :
    async_unload_entry true stored =
      .ok { returned := true, storedAfter := none, clientClosed := true } ∧
    async_unload_entry false stored =
      .ok { returned := false, storedAfter := stored,
            clientClosed := false } := by
  subst hst
  exact ⟨rfl, rfl⟩

/-- Claim C9 witness: concrete evaluation on a stored entry. -/
theorem unload_entry_close_iff_unload_ok_witness :
    async_unload_entry true (some sampleStored) =
      .ok { returned := true, storedAfter := none, clientClosed := true } ∧
    async_unload_entry false (some sampleStored) =
      .ok { returned := false, storedAfter := some sampleStored,
            clientClosed := false } :=
  unload_entry_close_iff_unload_ok (some sampleStored) sampleStored rfl

/-- Claim C10: when `get_homes` returns an empty list, the per-home loop body
never runs, so `base_data` is still unbound when the return dict is built;
the resulting `UnboundLocalError` is caught by the blanket handler and the
refresh raises `UpdateFailed` instead of returning an empty snapshot. -/
theorem update_data_empty_homes_update_failed (c : Client)
    (hh : c.get_homes = .ok []) :
    _async_update_data c =
      .error (.updateFailed
        ("Error communicating with API: " ++
          excStr (PyExc.unboundLocalError "base_data"))
        (.unboundLocalError "base_data")) := by
  have hb : updateBody c = .error (.unboundLocalError "base_data") := by
    simp [updateBody, hh, processHomes, initLoopState]
  simp [_async_update_data, hb]

/-- Claim C10 witness: concrete evaluation on `emptyHomesClient`. -/
theorem update_data_empty_homes_update_failed_witness :
    _async_update_data emptyHomesClient =
      .error (.updateFailed
        "Error communicating with API: cannot access local variable base_data"
        (.unboundLocalError "base_data")) :=
  update_data_empty_homes_update_failed emptyHomesClient (by rfl)
